import Mathlib

/-!
Verification of the gianfar Ethernet driver ring engine
(src/drivers/net/gianfar.c) against its natural-language specification.

The driver's core data structures and operations are shallowly embedded:
buffer descriptors become records of natural numbers (32-bit values with
explicit masking where overflow matters), the descriptor rings become
lists, and each C function relevant to the claims becomes an executable
Lean function mirroring the source line by line.  The default build
configuration is modelled (CONFIG_RX_TX_BUFF_XCHG not set) except where a
claim explicitly concerns the alternate path.
-/

namespace Gianfar

/-! ### Buffer-descriptor flag constants

Values follow the eTSEC buffer-descriptor layout used by the driver
(`gianfar.h`): TX status flags live in the upper half of the 32-bit
`lstatus` word, the frame length in the lower half. -/

def TXBD_READY : Nat := 0x8000
def TXBD_WRAP : Nat := 0x2000
def TXBD_INTERRUPT : Nat := 0x1000
def TXBD_LAST : Nat := 0x0800
def TXBD_CRC : Nat := 0x0400
def TXBD_TOE : Nat := 0x0002

def RXBD_EMPTY : Nat := 0x8000
def RXBD_WRAP : Nat := 0x2000
def RXBD_INTERRUPT : Nat := 0x1000
def RXBD_LAST : Nat := 0x0800
def RXBD_FIRST : Nat := 0x0400
def RXBD_LARGE : Nat := 0x0020
def RXBD_NONOCTET : Nat := 0x0010
def RXBD_SHORT : Nat := 0x0008
def RXBD_CRCERR : Nat := 0x0004
def RXBD_OVERRUN : Nat := 0x0002
def RXBD_TRUNCATED : Nat := 0x0001

/-- RXBD_ERR is the union of all receive error status bits. -/
def RXBD_ERR : Nat :=
  RXBD_LARGE ||| RXBD_SHORT ||| RXBD_NONOCTET |||
  RXBD_CRCERR ||| RXBD_OVERRUN ||| RXBD_TRUNCATED

/-- BD_LFLAG places 16-bit status flags into the upper half of lstatus. -/
def BD_LFLAG (flags : Nat) : Nat := flags <<< 16

def BD_LENGTH_MASK : Nat := 0x0000ffff

def GMAC_FCB_LEN : Nat := 8

/-! ### Bitwise helper lemmas -/

theorem Nat.testBit_or_eq (x y i : Nat) :
    (x ||| y).testBit i = (x.testBit i || y.testBit i) :=
  Nat.testBit_or x y i

theorem or_and_self_eq (x y : Nat) : (x ||| y) &&& y = y := by
  apply Nat.eq_of_testBit_eq
  intro i
  simp only [Nat.testBit_and, Nat.testBit_or]
  cases x.testBit i <;> cases y.testBit i <;> rfl

theorem and_of_or_left (x y z : Nat) (h : x &&& z = z) : (x ||| y) &&& z = z := by
  apply Nat.eq_of_testBit_eq
  intro i
  have hx : (x &&& z).testBit i = z.testBit i := by rw [h]
  simp only [Nat.testBit_and] at hx
  simp only [Nat.testBit_and, Nat.testBit_or]
  cases hz : z.testBit i <;> cases hxx : x.testBit i <;> cases hy : y.testBit i <;>
    simp_all

theorem and_of_or_right (x y z : Nat) (h : y &&& z = z) : (x ||| y) &&& z = z := by
  rw [Nat.lor_comm]
  exact and_of_or_left y x z h

/-! ### Transmit path (gfar_start_xmit)

The default build configuration is modelled (CONFIG_RX_TX_BUFF_XCHG not
set).  A transmit buffer descriptor is a 32-bit lstatus word plus a
buffer address; the ring is a list of descriptors.  Every store the C
function performs into a descriptor is also recorded, in program order,
in a write trace so that ordering claims can be stated. -/

structure TxBD where
  lstatus : Nat := 0
  bufPtr : Nat := 0
deriving Repr, DecidableEq, Inhabited

/-- TxWrite records one store into a ring descriptor: either the buffer
pointer field or the lstatus word. -/
inductive TxWrite
  | wbufPtr (idx : Nat) (v : Nat)
  | wlstatus (idx : Nat) (v : Nat)
deriving Repr, DecidableEq

/-- TxSkb models the outgoing packet as the transmit path sees it after
the header-preparation code: linear head length and mapped address, page
fragments with their sizes and mapped addresses, and the flags that
decide descriptor count and FCB contents. -/
structure TxSkb where
  headlen : Nat
  len : Nat
  frags : List (Nat × Nat)
  headAddr : Nat
  do_tstamp : Bool := false
  csum : Bool := false
  vlan : Bool := false
deriving Repr, DecidableEq

structure TxQueue where
  tx_ring_size : Nat
  ring : List TxBD
  num_txbdfree : Nat
  cur_tx : Nat
  skb_curtx : Nat
  tx_skbuff : List (Option TxSkb)
  stopped : Bool := false
  tx_packets : Nat := 0
  tx_bytes : Nat := 0
  tx_fifo_errors : Nat := 0
deriving Repr, DecidableEq

/-- Translation of `skip_txbd` with stride 1 (`next_txbd`): pointer
increment with wraparound at base + ring_size. -/
def next_txbd (idx N : Nat) : Nat :=
  if idx + 1 ≥ N then idx + 1 - N else idx + 1

def TX_RING_MOD_MASK (size : Nat) : Nat := size - 1

inductive TxResult
  | ok
  | busy
deriving Repr, DecidableEq

/-- Number of TxBDs required for a packet, as computed at the top of
`gfar_start_xmit`: one per fragment plus one for the head, plus one more
when a hardware timestamp is requested. -/
def nr_txbds_required (skb : TxSkb) : Nat :=
  if skb.do_tstamp then skb.frags.length + 2 else skb.frags.length + 1

/-- Translation of the fragment loop of `gfar_start_xmit`: walk the
fragments, advancing the descriptor pointer first, then build the
lstatus word from the descriptor's current contents or'd with the
fragment length and READY (plus LAST|INTERRUPT on the final fragment),
and store buffer pointer then lstatus.  Returns the updated ring, the
write trace in program order, and the final descriptor index. -/
def txFragLoop (ring : List TxBD) (N idx : Nat) (frags : List (Nat × Nat)) :
    List TxBD × List TxWrite × Nat :=
  match frags with
  | [] => (ring, [], idx)
  | (fsize, faddr) :: rest =>
    let i := next_txbd idx N
    let lst0 := (ring.getD i default).lstatus ||| fsize ||| BD_LFLAG TXBD_READY
    let lst :=
      if rest.isEmpty then lst0 ||| BD_LFLAG (TXBD_LAST ||| TXBD_INTERRUPT)
      else lst0
    let ring1 := ring.set i { bufPtr := faddr, lstatus := lst }
    let out := txFragLoop ring1 N i rest
    (out.1, TxWrite.wbufPtr i faddr :: TxWrite.wlstatus i lst :: out.2.1, out.2.2)

structure XmitOut where
  res : TxResult
  q : TxQueue
  trace : List TxWrite
deriving Repr, DecidableEq

/-- Translation of `gfar_start_xmit` (default configuration, non-GSO
packet, non-errata hardware).  The space check against `num_txbdfree`
stops the queue and returns busy without touching the ring; otherwise
the fragment descriptors are filled first, the head (and optional
timestamp) descriptor's buffer pointer is stored, and only then is the
first descriptor's lstatus word, carrying READY, stored as the final
descriptor write. -/
def gfar_start_xmit (skb : TxSkb) (q : TxQueue) : XmitOut :=
  let N := q.tx_ring_size
  let nr_frags := skb.frags.length
  let nr_txbds := nr_txbds_required skb
  if nr_txbds > q.num_txbdfree then
    { res := TxResult.busy
      q := { q with stopped := true, tx_fifo_errors := q.tx_fifo_errors + 1 }
      trace := [] }
  else
    let q1 := { q with
      tx_bytes := q.tx_bytes + skb.len
      tx_packets := q.tx_packets + 1 }
    let base := q.ring
    let start := q.cur_tx
    let tIdx := next_txbd start N
    let blk :=
      if nr_frags = 0 then
        if skb.do_tstamp then
          let v := (base.getD tIdx default).lstatus |||
            BD_LFLAG (TXBD_LAST ||| TXBD_INTERRUPT)
          (base.set tIdx { base.getD tIdx default with lstatus := v },
           [TxWrite.wlstatus tIdx v], tIdx,
           (base.getD start default).lstatus)
        else
          (base, ([] : List TxWrite), start,
           (base.getD start default).lstatus |||
             BD_LFLAG (TXBD_LAST ||| TXBD_INTERRUPT))
      else
        let startIdx := if skb.do_tstamp then tIdx else start
        let fl := txFragLoop base N startIdx skb.frags
        (fl.1, fl.2.1, fl.2.2, (fl.1.getD start default).lstatus)
    let ring1 := blk.1
    let trace1 := blk.2.1
    let txbdpAfter := blk.2.2.1
    let lstatus1 := blk.2.2.2
    let lstatus2 := if skb.csum then lstatus1 ||| BD_LFLAG TXBD_TOE else lstatus1
    let lstatus3 :=
      if skb.vlan && !skb.csum then lstatus2 ||| BD_LFLAG TXBD_TOE else lstatus2
    let lstatus4 :=
      if skb.do_tstamp then lstatus3 ||| BD_LFLAG TXBD_TOE else lstatus3
    let ring2 := ring1.set start { ring1.getD start default with bufPtr := skb.headAddr }
    let trace2 := trace1 ++ [TxWrite.wbufPtr start skb.headAddr]
    let blk2 :=
      if skb.do_tstamp then
        let tb := ring2.getD tIdx default
        let tv := tb.lstatus ||| BD_LFLAG TXBD_READY ||| (skb.headlen - GMAC_FCB_LEN)
        (ring2.set tIdx { tb with bufPtr := skb.headAddr + GMAC_FCB_LEN, lstatus := tv },
         trace2 ++ [TxWrite.wbufPtr tIdx (skb.headAddr + GMAC_FCB_LEN),
                    TxWrite.wlstatus tIdx tv],
         lstatus4 ||| BD_LFLAG (TXBD_CRC ||| TXBD_READY) ||| GMAC_FCB_LEN)
      else
        (ring2, trace2,
         lstatus4 ||| BD_LFLAG (TXBD_CRC ||| TXBD_READY) ||| skb.headlen)
    let ring3 := blk2.1
    let trace3 := blk2.2.1
    let lstatus5 := blk2.2.2
    let ring4 := ring3.set start { ring3.getD start default with lstatus := lstatus5 }
    let newFree := q1.num_txbdfree - nr_txbds
    { res := TxResult.ok
      q := { q1 with
        ring := ring4
        tx_skbuff := q1.tx_skbuff.set q1.skb_curtx (some skb)
        skb_curtx := (q1.skb_curtx + 1) &&& TX_RING_MOD_MASK N
        cur_tx := next_txbd txbdpAfter N
        num_txbdfree := newFree
        stopped := if newFree = 0 then true else q1.stopped
        tx_fifo_errors :=
          if newFree = 0 then q1.tx_fifo_errors + 1 else q1.tx_fifo_errors }
      trace := trace3 ++ [TxWrite.wlstatus start lstatus5] }

/-! ### Helper lemmas for ring index arithmetic and list updates -/

theorem getD_set_eq (l : List TxBD) (i : Nat) (a d : TxBD) (h : i < l.length) :
    (l.set i a).getD i d = a := by
  simp [List.getD, List.getElem?_set_self', h]

theorem getD_set_ne (l : List TxBD) (i j : Nat) (a d : TxBD) (h : i ≠ j) :
    (l.set i a).getD j d = l.getD j d := by
  simp [List.getD, List.getElem?_set_ne h]

theorem next_txbd_eq_mod (idx N : Nat) (h : idx < N) :
    next_txbd idx N = (idx + 1) % N := by
  unfold next_txbd
  by_cases h1 : idx + 1 ≥ N
  · have he : idx + 1 = N := by omega
    simp [h1, he, Nat.mod_self]
  · have h2 : idx + 1 < N := by omega
    simp [h1, Nat.mod_eq_of_lt h2]

theorem next_txbd_lt (idx N : Nat) (h : idx < N) : next_txbd idx N < N := by
  rw [next_txbd_eq_mod idx N h]
  exact Nat.mod_lt _ (by omega)

theorem add_mod_ne_self (idx m N : Nat) (hidx : idx < N) (hm1 : 1 ≤ m)
    (hmN : m < N) : (idx + m) % N ≠ idx := by
  intro heq
  by_cases hlt : idx + m < N
  · rw [Nat.mod_eq_of_lt hlt] at heq
    omega
  · have hge : idx + m ≥ N := by omega
    have hsub : idx + m - N < N := by omega
    rw [Nat.mod_eq_sub_mod hge, Nat.mod_eq_of_lt hsub] at heq
    omega

/-- Ring index targeted by a descriptor write. -/
def txWriteIdx : TxWrite → Nat
  | TxWrite.wbufPtr i _ => i
  | TxWrite.wlstatus i _ => i

/-- The flag bits a write keeps: a flag set F already contained in x stays
contained after or-ing anything else in. -/
theorem and_flag_ite (c : Prop) [Decidable c] (x y F : Nat) (h : x &&& F = F) :
    (if c then x ||| y else x) &&& F = F := by
  split
  · exact and_of_or_left _ _ _ h
  · exact h

/-- Specification of the fragment loop: it preserves the ring length,
ends at descriptor index (idx + number of fragments) mod N, every write
it emits targets an index of the form (idx + j) mod N with 1 ≤ j ≤
number of fragments, and when there is at least one fragment the
descriptor at the final index carries the LAST and INTERRUPT flags. -/
theorem txFragLoop_spec (frags : List (Nat × Nat)) :
    ∀ (ring : List TxBD) (N idx : Nat), idx < N → ring.length = N →
    (txFragLoop ring N idx frags).1.length = N ∧
    (txFragLoop ring N idx frags).2.2 = (idx + frags.length) % N ∧
    (∀ w ∈ (txFragLoop ring N idx frags).2.1,
      ∃ j, 1 ≤ j ∧ j ≤ frags.length ∧ txWriteIdx w = (idx + j) % N) ∧
    (frags ≠ [] →
      ((txFragLoop ring N idx frags).1.getD
          (txFragLoop ring N idx frags).2.2 default).lstatus &&&
          BD_LFLAG (TXBD_LAST ||| TXBD_INTERRUPT) =
        BD_LFLAG (TXBD_LAST ||| TXBD_INTERRUPT)) := by
  induction frags with
  | nil =>
    intro ring N idx hidx hlen
    refine ⟨hlen, ?_, ?_, ?_⟩
    · simp [txFragLoop, Nat.mod_eq_of_lt hidx]
    · intro w hw
      simp [txFragLoop] at hw
    · intro hne
      exact absurd rfl hne
  | cons f rest ih =>
    intro ring N idx hidx hlen
    obtain ⟨fsize, faddr⟩ := f
    have hN : 0 < N := by omega
    have hi : next_txbd idx N < N := next_txbd_lt idx N hidx
    have himod : next_txbd idx N = (idx + 1) % N := next_txbd_eq_mod idx N hidx
    simp only [txFragLoop]
    set i := next_txbd idx N with hidef
    set lst0 := (ring.getD i default).lstatus ||| fsize ||| BD_LFLAG TXBD_READY with hlst0
    set lst := if rest.isEmpty then lst0 ||| BD_LFLAG (TXBD_LAST ||| TXBD_INTERRUPT)
      else lst0 with hlst
    set ring1 := ring.set i { bufPtr := faddr, lstatus := lst } with hring1
    have hlen1 : ring1.length = N := by
      rw [hring1, List.length_set, hlen]
    obtain ⟨ihlen, ihidx, ihtr, ihlast⟩ := ih ring1 N i hi hlen1
    refine ⟨ihlen, ?_, ?_, ?_⟩
    · rw [ihidx, himod, Nat.mod_add_mod]
      simp only [List.length_cons]
      congr 1
      omega
    · intro w hw
      simp only [List.mem_cons] at hw
      rcases hw with rfl | rfl | hw
      · exact ⟨1, le_refl 1, by simp, by simp [txWriteIdx, himod]⟩
      · exact ⟨1, le_refl 1, by simp, by simp [txWriteIdx, himod]⟩
      · obtain ⟨j, hj1, hj2, hj3⟩ := ihtr w hw
        refine ⟨j + 1, by omega, by simp; omega, ?_⟩
        rw [hj3, himod, Nat.mod_add_mod]
        congr 1
        omega
    · intro _
      by_cases hrest : rest = []
      · subst hrest
        simp only [txFragLoop]
        have hget : (ring1.getD i default).lstatus = lst := by
          rw [hring1, getD_set_eq ring i _ default (by omega)]
        have hlval : lst = lst0 ||| BD_LFLAG (TXBD_LAST ||| TXBD_INTERRUPT) := by
          rw [hlst]
          simp
        rw [hget, hlval]
        exact or_and_self_eq _ _
      · exact ihlast hrest

/-- Claim C1: whenever the transmit submit operation is called on a
queue whose free descriptor count is smaller than the number of
descriptors the packet requires, the result is busy, the queue is marked
stopped, and no descriptor in the ring is mutated by that call. -/
theorem gfar_start_xmit_backpressure (skb : TxSkb) (q : TxQueue)
    (h : q.num_txbdfree < nr_txbds_required skb) :
    (gfar_start_xmit skb q).res = TxResult.busy ∧
    (gfar_start_xmit skb q).q.stopped = true ∧
    (gfar_start_xmit skb q).q.ring = q.ring ∧
    (gfar_start_xmit skb q).trace = [] := by
  have h' : nr_txbds_required skb > q.num_txbdfree := h
  unfold gfar_start_xmit
  simp [h']

/-- Witness for C1: a single-fragment packet with timestamping submitted
to a queue with two free descriptors (three are required). -/
theorem gfar_start_xmit_backpressure_witness :
    ({ tx_ring_size := 8, ring := List.replicate 8 {}, num_txbdfree := 2,
       cur_tx := 0, skb_curtx := 0,
       tx_skbuff := List.replicate 8 none } : TxQueue).num_txbdfree <
      nr_txbds_required
        { headlen := 60, len := 120, frags := [(60, 4096)], headAddr := 2048,
          do_tstamp := true } ∧
    (gfar_start_xmit
        { headlen := 60, len := 120, frags := [(60, 4096)], headAddr := 2048,
          do_tstamp := true }
        { tx_ring_size := 8, ring := List.replicate 8 {}, num_txbdfree := 2,
          cur_tx := 0, skb_curtx := 0,
          tx_skbuff := List.replicate 8 none }).res = TxResult.busy :=
  ⟨by decide,
   (gfar_start_xmit_backpressure
      { headlen := 60, len := 120, frags := [(60, 4096)], headAddr := 2048,
        do_tstamp := true }
      { tx_ring_size := 8, ring := List.replicate 8 {}, num_txbdfree := 2,
        cur_tx := 0, skb_curtx := 0,
        tx_skbuff := List.replicate 8 none } (by decide)).1⟩

theorem bd_get_set_eq (l : List TxBD) (i : Nat) (a : TxBD) (h : i < l.length) :
    ((l.set i a)[i]?.getD default) = a := by
  rw [List.getElem?_set_eq_of_lt a h]
  rfl

theorem bd_get_set_ne (l : List TxBD) (i j : Nat) (a : TxBD) (h : i ≠ j) :
    ((l.set i a)[j]?.getD default) = (l[j]?.getD default) := by
  rw [List.getElem?_set_ne h]

/-- Frame's last descriptor slot for a submitted packet: the head slot
for a single-descriptor frame, the timestamp slot for a timestamped
unfragmented frame, and the slot of the final fragment otherwise. -/
def tx_frame_last_idx (skb : TxSkb) (q : TxQueue) : Nat :=
  if skb.frags.length = 0 then
    if skb.do_tstamp then next_txbd q.cur_tx q.tx_ring_size else q.cur_tx
  else
    ((if skb.do_tstamp then next_txbd q.cur_tx q.tx_ring_size else q.cur_tx) +
      skb.frags.length) % q.tx_ring_size

/-- Claim C2: for every accepted transmit frame, the frame's last
descriptor carries the LAST and INTERRUPT flags, and the write that sets
the READY ownership flag on the frame's first descriptor is the very
last descriptor write of the call, with no earlier lstatus write
touching the first descriptor, so every other descriptor of the frame is
fully written before the frame is handed to hardware. -/
theorem gfar_start_xmit_frame_order (skb : TxSkb) (q : TxQueue)
    (hlen : q.ring.length = q.tx_ring_size)
    (hcur : q.cur_tx < q.tx_ring_size)
    (hfree : nr_txbds_required skb ≤ q.num_txbdfree)
    (hcap : q.num_txbdfree ≤ q.tx_ring_size) :
    (gfar_start_xmit skb q).res = TxResult.ok ∧
    ((gfar_start_xmit skb q).q.ring.getD (tx_frame_last_idx skb q) default).lstatus &&&
        BD_LFLAG (TXBD_LAST ||| TXBD_INTERRUPT) =
      BD_LFLAG (TXBD_LAST ||| TXBD_INTERRUPT) ∧
    ∃ t v, (gfar_start_xmit skb q).trace = t ++ [TxWrite.wlstatus q.cur_tx v] ∧
      v &&& BD_LFLAG TXBD_READY = BD_LFLAG TXBD_READY ∧
      ∀ v2, TxWrite.wlstatus q.cur_tx v2 ∉ t := by
  have hnr : ¬ (nr_txbds_required skb > q.num_txbdfree) := by omega
  have hcapN : nr_txbds_required skb ≤ q.tx_ring_size := le_trans hfree hcap
  unfold nr_txbds_required at hcapN
  cases ht : skb.do_tstamp
  case false =>
    rw [ht] at hcapN
    simp only [Bool.false_eq_true, if_false] at hcapN
    rcases hfr : skb.frags with _ | ⟨f, rest⟩
    · refine ⟨?_, ?_, ?_⟩
      · simp [gfar_start_xmit, hnr, ht, hfr]
      · simp only [gfar_start_xmit, tx_frame_last_idx, hnr, ht, hfr]
        simp [hnr]
        rw [bd_get_set_eq _ _ _ (by omega)]
        apply and_of_or_left
        apply and_of_or_left
        apply and_flag_ite
        apply and_flag_ite
        exact or_and_self_eq _ _
      · simp [gfar_start_xmit, hnr, ht, hfr]
        refine ⟨[TxWrite.wbufPtr q.cur_tx skb.headAddr], _, rfl, ?_, ?_⟩
        · apply and_of_or_left
          apply and_of_or_right
          decide
        · intro v2
          simp
    · rw [hfr] at hcapN
      simp only [List.length_cons] at hcapN
      obtain ⟨hlenf, hidxf, htrf, hlastf⟩ :=
        txFragLoop_spec (f :: rest) q.ring q.tx_ring_size q.cur_tx hcur hlen
      refine ⟨?_, ?_, ?_⟩
      · simp [gfar_start_xmit, hnr, ht, hfr]
      · simp [gfar_start_xmit, tx_frame_last_idx, hnr, ht, hfr]
        have hne : ((q.cur_tx + (rest.length + 1)) % q.tx_ring_size) ≠ q.cur_tx :=
          add_mod_ne_self _ _ _ hcur (by omega) (by omega)
        rw [bd_get_set_ne _ _ _ _ (fun h => hne h.symm)]
        have hlast2 := hlastf (List.cons_ne_nil f rest)
        rw [hidxf] at hlast2
        simp only [List.length_cons, List.getD, List.get?_eq_getElem?] at hlast2
        exact hlast2
      · simp [gfar_start_xmit, hnr, ht, hfr]
        refine ⟨(txFragLoop q.ring q.tx_ring_size q.cur_tx (f :: rest)).2.1 ++
          [TxWrite.wbufPtr q.cur_tx skb.headAddr], _, by rw [List.append_assoc]; rfl, ?_, ?_⟩
        · apply and_of_or_left
          apply and_of_or_right
          decide
        · intro v2 hmem
          rw [List.mem_append] at hmem
          rcases hmem with hmem | hmem
          · obtain ⟨j, hj1, hj2, hj3⟩ := htrf _ hmem
            simp only [txWriteIdx, List.length_cons] at hj3 hj2
            have := add_mod_ne_self q.cur_tx j q.tx_ring_size hcur hj1 (by omega)
            exact this hj3.symm
          · simp at hmem
  case true =>
    rw [ht] at hcapN
    simp only [if_true] at hcapN
    have hmodT : next_txbd q.cur_tx q.tx_ring_size = (q.cur_tx + 1) % q.tx_ring_size :=
      next_txbd_eq_mod _ _ hcur
    have hT : next_txbd q.cur_tx q.tx_ring_size < q.tx_ring_size := next_txbd_lt _ _ hcur
    rcases hfr : skb.frags with _ | ⟨f, rest⟩
    · rw [hfr] at hcapN
      simp only [List.length_nil] at hcapN
      have htne : next_txbd q.cur_tx q.tx_ring_size ≠ q.cur_tx := by
        rw [hmodT]
        exact add_mod_ne_self _ _ _ hcur le_rfl (by omega)
      refine ⟨?_, ?_, ?_⟩
      · simp [gfar_start_xmit, hnr, ht, hfr]
      · simp [gfar_start_xmit, tx_frame_last_idx, hnr, ht, hfr]
        rw [bd_get_set_ne _ _ _ _ (fun h => htne h.symm)]
        rw [bd_get_set_eq _ _ _ (by simp only [List.length_set, hlen]; omega)]
        rw [bd_get_set_ne _ _ _ _ (fun h => htne h.symm)]
        rw [bd_get_set_eq _ _ _ (by simp only [List.length_set, hlen]; omega)]
        apply and_of_or_left
        apply and_of_or_left
        exact or_and_self_eq _ _
      · simp [gfar_start_xmit, hnr, ht, hfr]
        refine ⟨[_, _, _, _], _, rfl, ?_, ?_⟩
        · apply and_of_or_left
          apply and_of_or_right
          decide
        · intro v2
          simp [Ne.symm htne]
    · rw [hfr] at hcapN
      simp only [List.length_cons] at hcapN
      obtain ⟨hlenf, hidxf, htrf, hlastf⟩ :=
        txFragLoop_spec (f :: rest) q.ring q.tx_ring_size
          (next_txbd q.cur_tx q.tx_ring_size) hT hlen
      have hlast_eq :
          (next_txbd q.cur_tx q.tx_ring_size + (rest.length + 1)) % q.tx_ring_size =
            (q.cur_tx + (1 + (rest.length + 1))) % q.tx_ring_size := by
        rw [hmodT, Nat.mod_add_mod]
        congr 1
        omega
      have hne_S :
          (next_txbd q.cur_tx q.tx_ring_size + (rest.length + 1)) % q.tx_ring_size ≠
            q.cur_tx := by
        rw [hlast_eq]
        exact add_mod_ne_self _ _ _ hcur (by omega) (by omega)
      have hne_T :
          (next_txbd q.cur_tx q.tx_ring_size + (rest.length + 1)) % q.tx_ring_size ≠
            next_txbd q.cur_tx q.tx_ring_size :=
        add_mod_ne_self _ _ _ hT (by omega) (by omega)
      have htne : next_txbd q.cur_tx q.tx_ring_size ≠ q.cur_tx := by
        rw [hmodT]
        exact add_mod_ne_self _ _ _ hcur le_rfl (by omega)
      refine ⟨?_, ?_, ?_⟩
      · simp [gfar_start_xmit, hnr, ht, hfr]
      · simp [gfar_start_xmit, tx_frame_last_idx, hnr, ht, hfr]
        rw [bd_get_set_ne _ _ _ _ (fun h => hne_S h.symm)]
        rw [bd_get_set_ne _ _ _ _ (fun h => hne_T h.symm)]
        rw [bd_get_set_ne _ _ _ _ (fun h => hne_S h.symm)]
        have hlast2 := hlastf (List.cons_ne_nil f rest)
        rw [hidxf] at hlast2
        simp only [List.length_cons, List.getD, List.get?_eq_getElem?] at hlast2
        exact hlast2
      · simp [gfar_start_xmit, hnr, ht, hfr]
        refine ⟨(txFragLoop q.ring q.tx_ring_size
            (next_txbd q.cur_tx q.tx_ring_size) (f :: rest)).2.1 ++
          [TxWrite.wbufPtr q.cur_tx skb.headAddr,
           TxWrite.wbufPtr (next_txbd q.cur_tx q.tx_ring_size)
             (skb.headAddr + GMAC_FCB_LEN), _],
          _, by rw [List.append_assoc]; rfl, ?_, ?_⟩
        · apply and_of_or_left
          apply and_of_or_right
          decide
        · intro v2 hmem
          rw [List.mem_append] at hmem
          rcases hmem with hmem | hmem
          · obtain ⟨j, hj1, hj2, hj3⟩ := htrf _ hmem
            simp only [txWriteIdx, List.length_cons] at hj3 hj2
            rw [hmodT, Nat.mod_add_mod] at hj3
            have : (q.cur_tx + (1 + j)) % q.tx_ring_size ≠ q.cur_tx :=
              add_mod_ne_self _ _ _ hcur (by omega) (by omega)
            rw [Nat.add_assoc] at hj3
            exact this hj3.symm
          · simp [Ne.symm htne] at hmem

/-- Concrete transmit queue used by the C2 witness. -/
def txqW : TxQueue :=
  { tx_ring_size := 8, ring := List.replicate 8 {}, num_txbdfree := 8,
    cur_tx := 0, skb_curtx := 0, tx_skbuff := List.replicate 8 none }

/-- Concrete timestamped two-fragment packet used by the C2 witness. -/
def txskbW : TxSkb :=
  { headlen := 14, len := 100, frags := [(30, 111), (40, 222)], headAddr := 999,
    do_tstamp := true, csum := true, vlan := false }

/-- Witness for C2: the frame-ordering theorem applied to a concrete
timestamped two-fragment packet on a fresh eight-slot ring. -/
theorem gfar_start_xmit_frame_order_witness :
    (txqW.ring.length = txqW.tx_ring_size ∧ txqW.cur_tx < txqW.tx_ring_size ∧
      nr_txbds_required txskbW ≤ txqW.num_txbdfree ∧
      txqW.num_txbdfree ≤ txqW.tx_ring_size) ∧
    ((gfar_start_xmit txskbW txqW).res = TxResult.ok ∧
     ((gfar_start_xmit txskbW txqW).q.ring.getD (tx_frame_last_idx txskbW txqW)
          default).lstatus &&& BD_LFLAG (TXBD_LAST ||| TXBD_INTERRUPT) =
        BD_LFLAG (TXBD_LAST ||| TXBD_INTERRUPT) ∧
     ∃ t v, (gfar_start_xmit txskbW txqW).trace = t ++ [TxWrite.wlstatus txqW.cur_tx v] ∧
       v &&& BD_LFLAG TXBD_READY = BD_LFLAG TXBD_READY ∧
       ∀ v2, TxWrite.wlstatus txqW.cur_tx v2 ∉ t) :=
  ⟨⟨by decide, by decide, by decide, by decide⟩,
   gfar_start_xmit_frame_order txskbW txqW (by decide) (by decide) (by decide)
     (by decide)⟩

/-! ### Ring WRAP invariant (claim C3)

The lstatus words of one descriptor ring are modelled as a list of
32-bit naturals.  The operations that touch descriptor status words in
the initialization, submission and cleanup paths are captured as a
reachability relation:

* `init` is `gfar_init_bds`: all descriptors zeroed, then the last
  slot's status receives TXBD_WRAP;
* `submit` covers every lstatus store of `gfar_start_xmit`, all of which
  or fragment lengths (16-bit) and flag bits other than WRAP into the
  descriptor's current word;
* `clean` is the `lstatus &= BD_LFLAG(TXBD_WRAP)` clear done by
  `gfar_clean_tx_ring` (and the buffer-exchange scan);
* `rearm` is `gfar_init_rxbdp`, which rewrites a slot to
  EMPTY|INTERRUPT plus WRAP exactly when the slot is the last one;
* `oversize` is the receive-cleanup overwrite `bdp->status = RXBD_LARGE`
  performed by `gfar_clean_rx_ring` on an error-free frame longer than
  the rx buffer: it replaces the 16-bit status half of the word (keeping
  the length half), and so clears the WRAP bit when it hits the last
  slot.  The C guard on that store (`!(status & RXBD_ERR)` and
  `length > rx_buffer_size`) depends on hardware-written status and
  length values that are outside this software model, so the step is
  kept unguarded — an over-approximation of the reachable states.

RXBD_WRAP and TXBD_WRAP are the same bit (0x2000) in the hardware
layout, so one relation covers both ring kinds. -/

def initTxRing (N : Nat) : List Nat :=
  (List.replicate N 0).set (N - 1) (BD_LFLAG TXBD_WRAP)

/-- Status word written by `gfar_init_rxbdp` when re-arming slot idx of
an N-slot receive ring. -/
def rxRearmStatus (N idx : Nat) : Nat :=
  BD_LFLAG (RXBD_EMPTY ||| RXBD_INTERRUPT) |||
    (if idx = N - 1 then BD_LFLAG RXBD_WRAP else 0)

inductive RingReach (N : Nat) : List Nat → Prop
  | init : RingReach N (initTxRing N)
  | submit (r : List Nat) (idx flags len : Nat) : RingReach N r → idx < N →
      flags &&& TXBD_WRAP = 0 → len < 65536 →
      RingReach N (r.set idx (r.getD idx 0 ||| (BD_LFLAG flags ||| len)))
  | clean (r : List Nat) (idx : Nat) : RingReach N r → idx < N →
      RingReach N (r.set idx (r.getD idx 0 &&& BD_LFLAG TXBD_WRAP))
  | rearm (r : List Nat) (idx : Nat) : RingReach N r → idx < N →
      RingReach N (r.set idx (rxRearmStatus N idx))
  | oversize (r : List Nat) (idx : Nat) : RingReach N r → idx < N →
      RingReach N (r.set idx
        (BD_LFLAG RXBD_LARGE ||| (r.getD idx 0 &&& BD_LENGTH_MASK)))

theorem getD_set_eq' {α : Type _} (l : List α) (i : Nat) (a d : α)
    (h : i < l.length) : (l.set i a).getD i d = a := by
  simp [List.getD, List.getElem?_set_self', h]

theorem getD_set_ne' {α : Type _} (l : List α) (i j : Nat) (a d : α) (h : i ≠ j) :
    (l.set i a).getD j d = l.getD j d := by
  simp [List.getD, List.getElem?_set_ne h]

theorem and_two_pow_ne_iff (x n : Nat) : x &&& 2 ^ n ≠ 0 ↔ x.testBit n = true := by
  constructor
  · intro h
    by_contra hb
    have hb' : x.testBit n = false := by
      cases hx : x.testBit n
      · rfl
      · exact absurd hx hb
    apply h
    apply Nat.eq_of_testBit_eq
    intro j
    simp only [Nat.testBit_and, Nat.zero_testBit, Nat.testBit_two_pow]
    by_cases hj : n = j
    · subst hj
      simp [hb']
    · simp [hj]
  · intro h h0
    have h1 := congrArg (fun z => z.testBit n) h0
    simp only [Nat.testBit_and, Nat.zero_testBit, Nat.testBit_two_pow] at h1
    simp [h] at h1

theorem BD_LFLAG_TXBD_WRAP_eq : BD_LFLAG TXBD_WRAP = 2 ^ 29 := by decide

theorem TXBD_WRAP_eq : TXBD_WRAP = 2 ^ 13 := by decide

/-- Wrap-bit test for a status word, as the driver writes it
(`lstatus & BD_LFLAG(TXBD_WRAP)`), rephrased through bit 29. -/
theorem wrap_bit_iff (x : Nat) :
    x &&& BD_LFLAG TXBD_WRAP ≠ 0 ↔ x.testBit 29 = true := by
  rw [BD_LFLAG_TXBD_WRAP_eq]
  exact and_two_pow_ne_iff x 29

/-- Counterexample for C3: a reachable ring state in which no slot has
the WRAP flag set.  On a four-slot ring, re-arm the last slot (WRAP set
there), then let the receive-cleanup oversize overwrite
`bdp->status = RXBD_LARGE` hit that slot: the overwrite replaces the
status half of the word and clears WRAP, so "exactly one descriptor has
WRAP set and it is slot N-1" fails in this state. -/
theorem ring_wrap_oversize_violation :
    RingReach 4
      (((initTxRing 4).set 3 (rxRearmStatus 4 3)).set 3
        (BD_LFLAG RXBD_LARGE |||
          (((initTxRing 4).set 3 (rxRearmStatus 4 3)).getD 3 0 &&&
            BD_LENGTH_MASK))) ∧
    ¬ (∀ i, i < 4 →
        ((((initTxRing 4).set 3 (rxRearmStatus 4 3)).set 3
          (BD_LFLAG RXBD_LARGE |||
            (((initTxRing 4).set 3 (rxRearmStatus 4 3)).getD 3 0 &&&
              BD_LENGTH_MASK))).getD i 0 &&& BD_LFLAG TXBD_WRAP ≠ 0 ↔
          i = 4 - 1)) :=
  ⟨RingReach.oversize _ 3
     (RingReach.rearm _ 3 RingReach.init (by decide)) (by decide),
   by decide⟩

/-- Claim C3 (amended): in every ring state reachable by
initialization, transmit submission, and transmit/receive cleanup
(including the receive-cleanup oversize overwrite), at most one
descriptor has the WRAP flag set and it can only be the physically last
slot; the exactly-one form holds except transiently after the oversize
overwrite clears WRAP on the last slot, and re-arming that slot
(`gfar_init_rxbdp`, the end of the same cleanup iteration) restores
exactly one WRAP at slot N-1; advancing past slot N-1 yields slot 0. -/
theorem ring_wrap_at_most_last (N : Nat) (r : List Nat) (hN : 1 ≤ N)
    (h : RingReach N r) :
    r.length = N ∧
    (∀ i, i < N → r.getD i 0 &&& BD_LFLAG TXBD_WRAP ≠ 0 → i = N - 1) ∧
    (∀ i, i < N →
      ((r.set (N - 1) (rxRearmStatus N (N - 1))).getD i 0 &&&
          BD_LFLAG TXBD_WRAP ≠ 0 ↔ i = N - 1)) ∧
    next_txbd (N - 1) N = 0 := by
  have hnext : next_txbd (N - 1) N = 0 := by
    unfold next_txbd
    have hsum : N - 1 + 1 = N := by omega
    simp [hsum]
  have hmain : r.length = N ∧
      (∀ i, i < N → r.getD i 0 &&& BD_LFLAG TXBD_WRAP ≠ 0 → i = N - 1) := by
    induction h with
    | init =>
      refine ⟨by simp [initTxRing], ?_⟩
      intro i hi hw
      by_cases hil : i = N - 1
      · exact hil
      · exfalso
        unfold initTxRing at hw
        rw [getD_set_ne' _ _ _ _ _ (fun hc => hil hc.symm)] at hw
        have hz : (List.replicate N (0 : Nat)).getD i 0 = 0 := by
          simp [List.getD, List.getElem?_replicate, hi]
        rw [hz] at hw
        simp at hw
    | submit r idx flags len hr hidx hflags hlen ih =>
      obtain ⟨ihlen, ihw⟩ := ih
      refine ⟨by simp [ihlen], ?_⟩
      intro i hi hw
      by_cases hil : i = idx
      · subst hil
        rw [getD_set_eq' _ _ _ _ (by omega)] at hw
        rw [wrap_bit_iff] at hw
        have hv : (BD_LFLAG flags ||| len).testBit 29 = false := by
          have h1 : (BD_LFLAG flags).testBit 29 = false := by
            unfold BD_LFLAG
            rw [Nat.testBit_shiftLeft]
            have h13 : flags.testBit 13 = false := by
              cases hx : flags.testBit 13
              · rfl
              · exfalso
                have hne := (and_two_pow_ne_iff flags 13).mpr hx
                rw [← TXBD_WRAP_eq] at hne
                exact hne hflags
            simp [h13]
          have h2 : len.testBit 29 = false := by
            apply Nat.testBit_lt_two_pow
            calc len < 65536 := hlen
              _ ≤ 2 ^ 29 := by norm_num
          simp only [Nat.testBit_or]
          simp [h1, h2]
        rw [Nat.testBit_or, hv, Bool.or_false, ← wrap_bit_iff] at hw
        exact ihw i hi hw
      · rw [getD_set_ne' _ _ _ _ _ (fun hc => hil hc.symm)] at hw
        exact ihw i hi hw
    | clean r idx hr hidx ih =>
      obtain ⟨ihlen, ihw⟩ := ih
      refine ⟨by simp [ihlen], ?_⟩
      intro i hi hw
      by_cases hil : i = idx
      · subst hil
        rw [getD_set_eq' _ _ _ _ (by omega)] at hw
        have hten : (r.getD i 0 &&& BD_LFLAG TXBD_WRAP) &&& BD_LFLAG TXBD_WRAP ≠ 0 ↔
            r.getD i 0 &&& BD_LFLAG TXBD_WRAP ≠ 0 := by
          rw [wrap_bit_iff, wrap_bit_iff, BD_LFLAG_TXBD_WRAP_eq]
          rw [Nat.testBit_and, Nat.testBit_two_pow]
          simp
        rw [hten] at hw
        exact ihw i hi hw
      · rw [getD_set_ne' _ _ _ _ _ (fun hc => hil hc.symm)] at hw
        exact ihw i hi hw
    | rearm r idx hr hidx ih =>
      obtain ⟨ihlen, ihw⟩ := ih
      refine ⟨by simp [ihlen], ?_⟩
      intro i hi hw
      by_cases hil : i = idx
      · subst hil
        rw [getD_set_eq' _ _ _ _ (by omega)] at hw
        unfold rxRearmStatus at hw
        rw [wrap_bit_iff, Nat.testBit_or] at hw
        have h1 : (BD_LFLAG (RXBD_EMPTY ||| RXBD_INTERRUPT)).testBit 29 = false := by
          decide
        rw [h1, Bool.false_or] at hw
        by_cases hil2 : i = N - 1
        · exact hil2
        · exfalso
          rw [if_neg hil2] at hw
          simp at hw
      · rw [getD_set_ne' _ _ _ _ _ (fun hc => hil hc.symm)] at hw
        exact ihw i hi hw
    | oversize r idx hr hidx ih =>
      obtain ⟨ihlen, ihw⟩ := ih
      refine ⟨by simp [ihlen], ?_⟩
      intro i hi hw
      by_cases hil : i = idx
      · subst hil
        exfalso
        rw [getD_set_eq' _ _ _ _ (by omega)] at hw
        rw [wrap_bit_iff, Nat.testBit_or] at hw
        have h1 : (BD_LFLAG RXBD_LARGE).testBit 29 = false := by decide
        have h2 : (r.getD i 0 &&& BD_LENGTH_MASK).testBit 29 = false := by
          apply Nat.testBit_lt_two_pow
          calc r.getD i 0 &&& BD_LENGTH_MASK ≤ BD_LENGTH_MASK := Nat.and_le_right
            _ < 2 ^ 29 := by norm_num [BD_LENGTH_MASK]
        rw [h1, h2] at hw
        simp at hw
      · rw [getD_set_ne' _ _ _ _ _ (fun hc => hil hc.symm)] at hw
        exact ihw i hi hw
  obtain ⟨hlen, hw⟩ := hmain
  refine ⟨hlen, hw, ?_, hnext⟩
  intro i hi
  by_cases hil : i = N - 1
  · subst hil
    rw [getD_set_eq' _ _ _ _ (by omega)]
    constructor
    · intro _
      rfl
    · intro _
      unfold rxRearmStatus
      rw [if_pos rfl]
      decide
  · rw [getD_set_ne' _ _ _ _ _ (fun hc => hil hc.symm)]
    simp only [hil, iff_false]
    exact fun hwset => hil (hw i hi hwset)

/-- Witness for C3 (amended): the at-most-one theorem applied to the
transiently violating state itself — after the oversize overwrite on the
last slot of a four-slot ring, no slot other than slot 3 carries WRAP,
and re-arming slot 3 restores exactly one WRAP there. -/
theorem ring_wrap_at_most_last_witness :
    (1 ≤ 4 ∧
      RingReach 4
        (((initTxRing 4).set 3 (rxRearmStatus 4 3)).set 3
          (BD_LFLAG RXBD_LARGE |||
            (((initTxRing 4).set 3 (rxRearmStatus 4 3)).getD 3 0 &&&
              BD_LENGTH_MASK)))) ∧
    ((((initTxRing 4).set 3 (rxRearmStatus 4 3)).set 3
        (BD_LFLAG RXBD_LARGE |||
          (((initTxRing 4).set 3 (rxRearmStatus 4 3)).getD 3 0 &&&
            BD_LENGTH_MASK))).length = 4 ∧
      (∀ i, i < 4 →
        (((initTxRing 4).set 3 (rxRearmStatus 4 3)).set 3
          (BD_LFLAG RXBD_LARGE |||
            (((initTxRing 4).set 3 (rxRearmStatus 4 3)).getD 3 0 &&&
              BD_LENGTH_MASK))).getD i 0 &&& BD_LFLAG TXBD_WRAP ≠ 0 →
          i = 4 - 1) ∧
      (∀ i, i < 4 →
        (((((initTxRing 4).set 3 (rxRearmStatus 4 3)).set 3
          (BD_LFLAG RXBD_LARGE |||
            (((initTxRing 4).set 3 (rxRearmStatus 4 3)).getD 3 0 &&&
              BD_LENGTH_MASK))).set (4 - 1) (rxRearmStatus 4 (4 - 1))).getD i 0 &&&
            BD_LFLAG TXBD_WRAP ≠ 0 ↔ i = 4 - 1)) ∧
      next_txbd (4 - 1) 4 = 0) :=
  ⟨⟨by decide,
    RingReach.oversize _ 3
      (RingReach.rearm _ 3 RingReach.init (by decide)) (by decide)⟩,
   ring_wrap_at_most_last 4 _ (by decide)
     (RingReach.oversize _ 3
       (RingReach.rearm _ 3 RingReach.init (by decide)) (by decide))⟩

/-! ### Receive error accounting (count_errors)

Direct translation of `count_errors` in gianfar.c: the statistics touched
are `dev->stats` (rx_length_errors, rx_frame_errors, rx_crc_errors) and
the driver's extra statistics (rx_trunc, rx_large, rx_short, rx_nonoctet,
rx_crcerr, rx_overrun). -/

structure RxErrStats where
  rx_length_errors : Nat := 0
  rx_frame_errors : Nat := 0
  rx_crc_errors : Nat := 0
  rx_trunc : Nat := 0
  rx_large : Nat := 0
  rx_short : Nat := 0
  rx_nonoctet : Nat := 0
  rx_crcerr : Nat := 0
  rx_overrun : Nat := 0
deriving Repr, DecidableEq

/-- Translation of `count_errors(status, dev)`: a truncated frame counts
only as a length error plus the truncated extra counter and the function
returns; otherwise each error class present in the status is counted. -/
def count_errors (status : Nat) (s : RxErrStats) : RxErrStats :=
  if status &&& RXBD_TRUNCATED ≠ 0 then
    { s with
      rx_length_errors := s.rx_length_errors + 1
      rx_trunc := s.rx_trunc + 1 }
  else
    let s :=
      if status &&& (RXBD_LARGE ||| RXBD_SHORT) ≠ 0 then
        let s := { s with rx_length_errors := s.rx_length_errors + 1 }
        if status &&& RXBD_LARGE ≠ 0 then
          { s with rx_large := s.rx_large + 1 }
        else
          { s with rx_short := s.rx_short + 1 }
      else s
    let s :=
      if status &&& RXBD_NONOCTET ≠ 0 then
        { s with
          rx_frame_errors := s.rx_frame_errors + 1
          rx_nonoctet := s.rx_nonoctet + 1 }
      else s
    let s :=
      if status &&& RXBD_CRCERR ≠ 0 then
        { s with
          rx_crcerr := s.rx_crcerr + 1
          rx_crc_errors := s.rx_crc_errors + 1 }
      else s
    if status &&& RXBD_OVERRUN ≠ 0 then
      { s with
        rx_overrun := s.rx_overrun + 1
        rx_crc_errors := s.rx_crc_errors + 1 }
    else s

/-- Claim C10: for every received frame whose status has the TRUNCATED
error bit set, the error accounting increments only the length-error and
truncated counters and returns, leaving the large/short, non-octet, CRC,
and overrun counters unchanged even when those status bits are also set
in the same frame's status. -/
theorem count_errors_truncated (status : Nat) (s : RxErrStats)
    (h : status &&& RXBD_TRUNCATED ≠ 0) :
    count_errors status s =
      { s with
        rx_length_errors := s.rx_length_errors + 1
        rx_trunc := s.rx_trunc + 1 } := by
  unfold count_errors
  simp [h]

/-- Witness for C10 at a status with every error bit set at once. -/
theorem count_errors_truncated_witness :
    (0x3F : Nat) &&& RXBD_TRUNCATED ≠ 0 ∧
    count_errors 0x3F {} =
      { (({} : RxErrStats)) with rx_length_errors := 1, rx_trunc := 1 } := by
  exact ⟨by decide, count_errors_truncated 0x3F {} (by decide)⟩

/-! ### Buffer recycle pool (gfar_new_skb / gfar_free_skb)

The pool state is the calling CPU's local free list, the global overflow
list, the bound `recycle_max`, and the driver's pool counters.  The
kernel list primitives push/pop at the list head.  Socket buffers are
reduced to the fields the pool logic inspects. -/

structure PSkb where
  id : Nat
  dataLen : Nat := 0
  nrFrags : Nat := 0
  truesizeOk : Bool := true
  cloned : Bool := false
  sizeOk : Bool := true
deriving Repr, DecidableEq

/-- Modelled from the spec: the kernel helper `skb_is_recycleable` is not
part of this repository's sources; per the spec the recycleable
predicate holds for a linear, correctly-sized, single-reference buffer. -/
def skb_is_recycleable (s : PSkb) : Bool :=
  s.dataLen == 0 && s.sizeOk && !s.cloned

/-- Translation of `skb_is_nonlinear`: a buffer with paged data. -/
def skb_is_nonlinear (s : PSkb) : Bool := s.dataLen != 0

/-- Translation of `gfar_skb_nonlinear_recycleable`: a non-linear buffer
whose true size matches the driver's own rx-buffer allocation. -/
def gfar_skb_nonlinear_recycleable (s : PSkb) : Bool :=
  skb_is_nonlinear s && s.truesizeOk

/-- Fragment cleanup performed by `gfar_free_skb` on a salvageable
non-linear buffer: drop the page fragments and the paged length. -/
def cleanFrags (s : PSkb) : PSkb :=
  if s.nrFrags ≠ 0 then { s with nrFrags := 0, dataLen := 0 } else s

structure RecyclePool where
  localq : List PSkb
  globalq : List PSkb
  recycle_max : Nat
  alloc_count : Nat := 0
  alloc_swap_count : Nat := 0
  free_count : Nat := 0
  free_swap_count : Nat := 0
deriving Repr, DecidableEq

/-- Translation of `gfar_new_skb`: pop the CPU-local list; on empty,
exchange the local list with a non-empty global list under the lock and
pop the newly acquired list; otherwise fall back to the system allocator
whose (possibly failed) result is passed in as `fresh`. -/
def gfar_new_skb (p : RecyclePool) (fresh : Option PSkb) :
    Option PSkb × RecyclePool :=
  match p.localq with
  | skb :: rest =>
    (some skb, { p with localq := rest, alloc_count := p.alloc_count + 1 })
  | [] =>
    match p.globalq with
    | skb :: rest =>
      (some skb,
       { p with
         localq := rest
         globalq := []
         alloc_swap_count := p.alloc_swap_count + 1
         alloc_count := p.alloc_count + 1 })
    | [] => (fresh, p)

inductive FreeOutcome
  | freed
  | pushedLocal
  | pushedSwap
deriving Repr, DecidableEq

/-- Enqueue stage of `gfar_free_skb`: push onto the local list while it
is below `recycle_max`; at capacity, exchange the full local list with
the global list only when the global list is empty, otherwise free the
buffer outright. -/
def gfar_free_skb_enqueue (p : RecyclePool) (skb : PSkb) :
    RecyclePool × FreeOutcome :=
  if p.localq.length < p.recycle_max then
    ({ p with localq := skb :: p.localq, free_count := p.free_count + 1 },
     FreeOutcome.pushedLocal)
  else if p.globalq.length = 0 then
    ({ p with
       globalq := p.localq
       localq := [skb]
       free_swap_count := p.free_swap_count + 1
       free_count := p.free_count + 1 },
     FreeOutcome.pushedSwap)
  else (p, FreeOutcome.freed)

/-- Translation of `gfar_free_skb`: a buffer failing the recycleable
predicate is freed unless it is a salvageable driver-allocated
non-linear buffer, in which case its fragments are dropped and the
predicate re-tested; buffers passing the test reach the enqueue stage. -/
def gfar_free_skb (p : RecyclePool) (skb : PSkb) : RecyclePool × FreeOutcome :=
  if !(skb_is_recycleable skb) then
    if !(gfar_skb_nonlinear_recycleable skb) then (p, FreeOutcome.freed)
    else
      let skb2 := cleanFrags skb
      if !(skb_is_recycleable skb2) then (p, FreeOutcome.freed)
      else gfar_free_skb_enqueue p skb2
  else gfar_free_skb_enqueue p skb

/-- Claim C4: the acquire operation pops from the local list when it is
non-empty; otherwise, when the global list is non-empty, the lists are
exchanged and the head of the newly acquired local list is returned;
when both are empty the system allocator's result (possibly none) is
returned unchanged. -/
theorem gfar_new_skb_spec (p : RecyclePool) (fresh : Option PSkb) :
    (∀ skb rest, p.localq = skb :: rest →
      gfar_new_skb p fresh =
        (some skb, { p with localq := rest, alloc_count := p.alloc_count + 1 })) ∧
    (∀ skb rest, p.localq = [] → p.globalq = skb :: rest →
      gfar_new_skb p fresh =
        (some skb,
         { p with
           localq := rest
           globalq := []
           alloc_swap_count := p.alloc_swap_count + 1
           alloc_count := p.alloc_count + 1 })) ∧
    (p.localq = [] → p.globalq = [] → gfar_new_skb p fresh = (fresh, p)) := by
  refine ⟨?_, ?_, ?_⟩
  · intro skb rest hl
    simp [gfar_new_skb, hl]
  · intro skb rest hl hg
    simp [gfar_new_skb, hl, hg]
  · intro hl hg
    simp [gfar_new_skb, hl, hg]

/-- Witness for C4: acquiring from a pool whose local list is empty and
whose global list holds two buffers swaps the lists and pops the head. -/
theorem gfar_new_skb_spec_witness :
    ({ localq := [], globalq := [{ id := 5 }, { id := 6 }], recycle_max := 16 } : RecyclePool).localq
        = [] ∧
    gfar_new_skb { localq := [], globalq := [{ id := 5 }, { id := 6 }], recycle_max := 16 }
        (some { id := 9 }) =
      (some { id := 5 },
       { localq := [{ id := 6 }], globalq := [], recycle_max := 16,
         alloc_swap_count := 1, alloc_count := 1 }) :=
  ⟨rfl,
   (gfar_new_skb_spec { localq := [], globalq := [{ id := 5 }, { id := 6 }], recycle_max := 16 }
      (some { id := 9 })).2.1 { id := 5 } [{ id := 6 }] rfl rfl⟩

/-- Counterexample for C5: a non-linear buffer (one page fragment, paged
length 100) fails the recycleable predicate at release time, yet the
release operation does not free it — the fragment-cleanup salvage path
enqueues its cleaned form on the local free list. -/
theorem gfar_free_skb_nonlinear_enqueued :
    skb_is_recycleable
        { id := 1, dataLen := 100, nrFrags := 1 } = false ∧
    gfar_free_skb { localq := [], globalq := [], recycle_max := 16 }
        { id := 1, dataLen := 100, nrFrags := 1 } =
      ({ localq := [{ id := 1, dataLen := 0, nrFrags := 0 }], globalq := [],
         recycle_max := 16, free_count := 1 },
       FreeOutcome.pushedLocal) := by
  exact ⟨rfl, rfl⟩

/-- Claim C5 (amended): a buffer failing the recycleable predicate is
freed and never enqueued unless it is a salvageable non-linear buffer of
matching true size whose fragment-cleaned form passes the predicate, in
which case the cleaned buffer is recycled; a buffer reaching the enqueue
stage is pushed onto the local list when it is below capacity M, and at
capacity the full local list is exchanged with the global list only if
the global list is empty, otherwise the buffer is freed outright. -/
theorem gfar_free_skb_spec (p : RecyclePool) (skb : PSkb) :
    (skb_is_recycleable skb = false → gfar_skb_nonlinear_recycleable skb = false →
      gfar_free_skb p skb = (p, FreeOutcome.freed)) ∧
    (skb_is_recycleable skb = false → gfar_skb_nonlinear_recycleable skb = true →
      skb_is_recycleable (cleanFrags skb) = false →
      gfar_free_skb p skb = (p, FreeOutcome.freed)) ∧
    (∀ s2, (if skb_is_recycleable skb then some skb
        else if gfar_skb_nonlinear_recycleable skb &&
               skb_is_recycleable (cleanFrags skb) then some (cleanFrags skb)
        else none) = some s2 →
      (p.localq.length < p.recycle_max →
        gfar_free_skb p skb =
          ({ p with localq := s2 :: p.localq, free_count := p.free_count + 1 },
           FreeOutcome.pushedLocal)) ∧
      (p.recycle_max ≤ p.localq.length → p.globalq = [] →
        gfar_free_skb p skb =
          ({ p with
             globalq := p.localq
             localq := [s2]
             free_swap_count := p.free_swap_count + 1
             free_count := p.free_count + 1 },
           FreeOutcome.pushedSwap)) ∧
      (p.recycle_max ≤ p.localq.length → p.globalq ≠ [] →
        gfar_free_skb p skb = (p, FreeOutcome.freed))) := by
  refine ⟨?_, ?_, ?_⟩
  · intro h1 h2
    simp [gfar_free_skb, h1, h2]
  · intro h1 h2 h3
    simp [gfar_free_skb, h1, h2, h3]
  · intro s2 hs2
    have henq : gfar_free_skb p skb = gfar_free_skb_enqueue p s2 := by
      by_cases h1 : skb_is_recycleable skb
      · rw [if_pos h1] at hs2
        obtain rfl : skb = s2 := Option.some_injective _ hs2
        simp [gfar_free_skb, h1]
      · rw [if_neg h1] at hs2
        by_cases h2 : gfar_skb_nonlinear_recycleable skb &&
            skb_is_recycleable (cleanFrags skb)
        · rw [if_pos h2] at hs2
          obtain rfl : cleanFrags skb = s2 := Option.some_injective _ hs2
          rw [Bool.and_eq_true] at h2
          have h1f : skb_is_recycleable skb = false := by
            cases hx : skb_is_recycleable skb
            · rfl
            · exact absurd hx h1
          simp [gfar_free_skb, h1f, h2.1, h2.2]
        · rw [if_neg h2] at hs2
          exact absurd hs2 (by simp)
    refine ⟨?_, ?_, ?_⟩
    · intro hlt
      rw [henq]
      simp [gfar_free_skb_enqueue, hlt]
    · intro hge hg
      rw [henq]
      simp [gfar_free_skb_enqueue, Nat.not_lt.mpr hge, hg]
    · intro hge hg
      rw [henq]
      have hg0 : p.globalq.length ≠ 0 := by
        intro h0
        exact hg (List.length_eq_zero.mp h0)
      simp [gfar_free_skb_enqueue, Nat.not_lt.mpr hge, hg0]

/-- Witness for C5 (amended): releasing a clean recycleable buffer into
a pool whose local list is at capacity while the global list is empty
performs the list exchange. -/
theorem gfar_free_skb_spec_witness :
    (if skb_is_recycleable (⟨7, 0, 0, true, false, true⟩ : PSkb) then
        some (⟨7, 0, 0, true, false, true⟩ : PSkb)
      else if gfar_skb_nonlinear_recycleable ⟨7, 0, 0, true, false, true⟩ &&
             skb_is_recycleable (cleanFrags ⟨7, 0, 0, true, false, true⟩) then
        some (cleanFrags ⟨7, 0, 0, true, false, true⟩)
      else none) = some ⟨7, 0, 0, true, false, true⟩ ∧
    gfar_free_skb { localq := [{ id := 1 }, { id := 2 }], globalq := [], recycle_max := 2 }
        ⟨7, 0, 0, true, false, true⟩ =
      ({ localq := [⟨7, 0, 0, true, false, true⟩], globalq := [{ id := 1 }, { id := 2 }],
         recycle_max := 2, free_swap_count := 1, free_count := 1 },
       FreeOutcome.pushedSwap) :=
  ⟨by decide,
   (((gfar_free_skb_spec { localq := [{ id := 1 }, { id := 2 }], globalq := [], recycle_max := 2 }
        ⟨7, 0, 0, true, false, true⟩).2.2 ⟨7, 0, 0, true, false, true⟩
      (by decide)).2.1 (by decide) rfl)⟩

/-! ### Receive cleanup iteration (gfar_clean_rx_ring body, claim C6)

One iteration of the receive cleanup loop is modelled for the default
configuration: the descriptor under the software cursor has been
completed by hardware (EMPTY clear), a replacement buffer is requested
from the pool, and the packet is either delivered upward or dropped,
after which the slot is re-armed.  The descriptor stores performed by
`gfar_new_rxbdp`/`gfar_init_rxbdp` are recorded in program order:
buffer pointer first, write barrier, then the lstatus word. -/

def ETH_FCS_LEN : Nat := 4

structure RxBD where
  status : Nat := 0
  length : Nat := 0
  bufPtr : Nat := 0
deriving Repr, DecidableEq, Inhabited

structure RxSkb where
  id : Nat
  addr : Nat
deriving Repr, DecidableEq

inductive RxWrite
  | wbufPtr (idx : Nat) (v : Nat)
  | wlstatus (idx : Nat) (v : Nat)
deriving Repr, DecidableEq

structure RxQueue where
  rx_ring_size : Nat
  ring : List RxBD
  rx_skbuff : List (Option RxSkb)
  cur_rx : Nat
  skb_currx : Nat
  stats : RxErrStats := {}
  rx_packets : Nat := 0
  rx_bytes : Nat := 0
  rx_dropped : Nat := 0
  rx_skbmissing : Nat := 0
deriving Repr, DecidableEq

def RX_RING_MOD_MASK (size : Nat) : Nat := size - 1

/-- Translation of `next_bd`: advance a receive descriptor pointer with
wraparound at the end of the ring. -/
def next_bd (idx N : Nat) : Nat :=
  if idx + 1 ≥ N then idx + 1 - N else idx + 1

/-- Result of one receive-cleanup iteration: the updated queue, the
packets delivered upward as (buffer id, packet length) pairs, and the
descriptor writes in program order. -/
structure RxIterOut where
  q : RxQueue
  delivered : List (Nat × Nat)
  trace : List RxWrite
deriving Repr, DecidableEq

/-- Status word used by the checks of `gfar_clean_rx_ring` after the
oversize rewrite: a frame longer than the rx buffer with no error bits
has its descriptor status overwritten with RXBD_LARGE. -/
def rx_effective_status (bdp : RxBD) (rx_buffer_size : Nat) : Nat :=
  if bdp.status &&& RXBD_ERR = 0 ∧ bdp.length > rx_buffer_size then RXBD_LARGE
  else bdp.status

/-- Translation of one iteration of the loop body of
`gfar_clean_rx_ring` (default configuration).  `newskb` is the result of
the pool acquire (`gfar_new_skb`), possibly none on allocation failure.
On allocation failure or an errored/non-LAST frame the errors are
counted and the old buffer is kept (allocation failure) or returned to
the pool; otherwise the packet is delivered upward.  The slot is then
re-armed: the replacement (or retained) buffer's address is stored
first, then the EMPTY ownership word. -/
def gfar_rx_iteration (q : RxQueue) (rx_buffer_size : Nat)
    (newskb : Option RxSkb) : RxIterOut :=
  let N := q.rx_ring_size
  let bdp := q.ring.getD q.cur_rx default
  if bdp.status &&& RXBD_EMPTY ≠ 0 then
    { q := q, delivered := [], trace := [] }
  else
    let skb := q.rx_skbuff.getD q.skb_currx none
    let st := rx_effective_status bdp rx_buffer_size
    let step :=
      if newskb.isNone ∨ st &&& RXBD_LAST = 0 ∨ st &&& RXBD_ERR ≠ 0 then
        let stats1 := count_errors st q.stats
        let newskb2 := if newskb.isNone then skb else newskb
        ({ q with stats := stats1 }, newskb2, ([] : List (Nat × Nat)))
      else
        let q1 := { q with rx_packets := q.rx_packets + 1 }
        match skb with
        | some sk =>
          let pkt_len := bdp.length - ETH_FCS_LEN
          ({ q1 with rx_bytes := q1.rx_bytes + pkt_len }, newskb,
           [(sk.id, pkt_len)])
        | none =>
          ({ q1 with
             rx_dropped := q1.rx_dropped + 1
             rx_skbmissing := q1.rx_skbmissing + 1 }, newskb,
           ([] : List (Nat × Nat)))
    let q2 := step.1
    let newskb2 := step.2.1
    let buf := (newskb2.map RxSkb.addr).getD 0
    let rearmed : RxBD :=
      { status := rxRearmStatus N q.cur_rx >>> 16, length := 0, bufPtr := buf }
    { q := { q2 with
        ring := q.ring.set q.cur_rx rearmed
        rx_skbuff := q.rx_skbuff.set q.skb_currx newskb2
        cur_rx := next_bd q.cur_rx N
        skb_currx := (q.skb_currx + 1) &&& RX_RING_MOD_MASK N }
      delivered := step.2.2
      trace := [RxWrite.wbufPtr q.cur_rx buf,
                RxWrite.wlstatus q.cur_rx (rxRearmStatus N q.cur_rx)] }

/-- Concrete receive queue used by the C6 theorems: slot 0 holds a
completed clean single-descriptor frame (FIRST|LAST, no error bits)
whose buffer is the skb with id 7 mapped at address 500. -/
def rxqW : RxQueue :=
  { rx_ring_size := 4
    ring := [{ status := RXBD_FIRST ||| RXBD_LAST, length := 100, bufPtr := 500 },
             { status := RXBD_EMPTY ||| RXBD_INTERRUPT, length := 0, bufPtr := 600 },
             { status := RXBD_EMPTY ||| RXBD_INTERRUPT, length := 0, bufPtr := 700 },
             { status := RXBD_EMPTY ||| RXBD_INTERRUPT ||| RXBD_WRAP, length := 0,
               bufPtr := 800 }]
    rx_skbuff := [some { id := 7, addr := 500 }, some { id := 8, addr := 600 },
                  some { id := 9, addr := 700 }, some { id := 10, addr := 800 }]
    cur_rx := 0
    skb_currx := 0 }

/-- Counterexample for C6: when the pool acquire fails while cleaning a
clean completed frame, the packet is dropped and the original buffer is
reinstalled, but no error counter is incremented — neither the hardware
error counters nor the missing-buffer counter change. -/
theorem gfar_rx_alloc_fail_no_counter :
    (gfar_rx_iteration rxqW 1536 none).delivered = [] ∧
    (gfar_rx_iteration rxqW 1536 none).q.stats = ({} : RxErrStats) ∧
    (gfar_rx_iteration rxqW 1536 none).q.rx_skbmissing = 0 ∧
    (gfar_rx_iteration rxqW 1536 none).q.rx_dropped = 0 ∧
    (gfar_rx_iteration rxqW 1536 none).q.rx_skbuff.getD 0 none =
      some { id := 7, addr := 500 } ∧
    ((gfar_rx_iteration rxqW 1536 none).q.ring.getD 0 default).bufPtr = 500 := by
  refine ⟨rfl, ?_, rfl, rfl, rfl, rfl⟩
  decide

/-- Claim C6 (amended): for every receive-cleanup iteration in which the
pool acquire fails, the arriving packet is dropped (not delivered
upward), the error counters change only according to the frame's status
error bits (nothing increments for a clean frame, and the
missing-buffer and dropped counters stay unchanged), and the original
buffer's address is reinstalled into the same descriptor before its
ownership flag is re-armed, leaving no slot without a valid buffer
address. -/
theorem gfar_rx_iteration_alloc_fail (q : RxQueue) (rx_buffer_size : Nat)
    (sk : RxSkb)
    (hlen : q.ring.length = q.rx_ring_size)
    (hcur : q.cur_rx < q.rx_ring_size)
    (hskc : q.skb_currx < q.rx_skbuff.length)
    (hne : (q.ring.getD q.cur_rx default).status &&& RXBD_EMPTY = 0)
    (hskb : q.rx_skbuff.getD q.skb_currx none = some sk) :
    (gfar_rx_iteration q rx_buffer_size none).delivered = [] ∧
    (gfar_rx_iteration q rx_buffer_size none).q.stats =
      count_errors
        (rx_effective_status (q.ring.getD q.cur_rx default) rx_buffer_size)
        q.stats ∧
    (gfar_rx_iteration q rx_buffer_size none).q.rx_dropped = q.rx_dropped ∧
    (gfar_rx_iteration q rx_buffer_size none).q.rx_skbmissing = q.rx_skbmissing ∧
    (gfar_rx_iteration q rx_buffer_size none).q.rx_skbuff.getD q.skb_currx none =
      some sk ∧
    (gfar_rx_iteration q rx_buffer_size none).trace =
      [RxWrite.wbufPtr q.cur_rx sk.addr,
       RxWrite.wlstatus q.cur_rx (rxRearmStatus q.rx_ring_size q.cur_rx)] ∧
    ((gfar_rx_iteration q rx_buffer_size none).q.ring.getD q.cur_rx default).bufPtr
      = sk.addr ∧
    ((gfar_rx_iteration q rx_buffer_size none).q.ring.getD q.cur_rx default).status
      &&& RXBD_EMPTY ≠ 0 := by
  have hneG : (q.ring[q.cur_rx]?.getD default).status &&& RXBD_EMPTY = 0 := by
    simpa [List.getD, List.get?_eq_getElem?] using hne
  have hskbG : q.rx_skbuff[q.skb_currx]?.getD none = some sk := by
    simpa [List.getD, List.get?_eq_getElem?] using hskb
  have hring : q.cur_rx < q.ring.length := by omega
  have hmain : gfar_rx_iteration q rx_buffer_size none =
      { q := { q with
          ring := q.ring.set q.cur_rx
            { status := rxRearmStatus q.rx_ring_size q.cur_rx >>> 16, length := 0,
              bufPtr := sk.addr }
          rx_skbuff := q.rx_skbuff.set q.skb_currx (some sk)
          cur_rx := next_bd q.cur_rx q.rx_ring_size
          skb_currx := (q.skb_currx + 1) &&& RX_RING_MOD_MASK q.rx_ring_size
          stats := count_errors
            (rx_effective_status (q.ring.getD q.cur_rx default) rx_buffer_size)
            q.stats }
        delivered := []
        trace := [RxWrite.wbufPtr q.cur_rx sk.addr,
                  RxWrite.wlstatus q.cur_rx (rxRearmStatus q.rx_ring_size q.cur_rx)] } := by
    simp [gfar_rx_iteration, hneG, hskbG, List.getD, List.get?_eq_getElem?]
  refine ⟨?_, ?_, ?_, ?_, ?_, ?_, ?_, ?_⟩
  · rw [hmain]
  · rw [hmain]
  · rw [hmain]
  · rw [hmain]
  · rw [hmain]
    exact getD_set_eq' _ _ _ _ hskc
  · rw [hmain]
  · rw [hmain]
    rw [getD_set_eq' _ _ _ _ hring]
  · rw [hmain]
    rw [getD_set_eq' _ _ _ _ hring]
    unfold rxRearmStatus
    by_cases hq : q.cur_rx = q.rx_ring_size - 1
    · rw [if_pos hq]
      dsimp only
      decide
    · rw [if_neg hq]
      dsimp only
      decide

/-- Witness for C6 (amended): the allocation-failure theorem applied to
the concrete queue, confirming drop, reinstall and re-arm on slot 0. -/
theorem gfar_rx_iteration_alloc_fail_witness :
    (rxqW.ring.length = rxqW.rx_ring_size ∧ rxqW.cur_rx < rxqW.rx_ring_size ∧
      rxqW.skb_currx < rxqW.rx_skbuff.length ∧
      (rxqW.ring.getD rxqW.cur_rx default).status &&& RXBD_EMPTY = 0 ∧
      rxqW.rx_skbuff.getD rxqW.skb_currx none = some { id := 7, addr := 500 }) ∧
    ((gfar_rx_iteration rxqW 1536 none).delivered = [] ∧
     (gfar_rx_iteration rxqW 1536 none).q.stats =
       count_errors
         (rx_effective_status (rxqW.ring.getD rxqW.cur_rx default) 1536)
         rxqW.stats ∧
     (gfar_rx_iteration rxqW 1536 none).q.rx_dropped = rxqW.rx_dropped ∧
     (gfar_rx_iteration rxqW 1536 none).q.rx_skbmissing = rxqW.rx_skbmissing ∧
     (gfar_rx_iteration rxqW 1536 none).q.rx_skbuff.getD rxqW.skb_currx none =
       some { id := 7, addr := 500 } ∧
     (gfar_rx_iteration rxqW 1536 none).trace =
       [RxWrite.wbufPtr rxqW.cur_rx 500,
        RxWrite.wlstatus rxqW.cur_rx (rxRearmStatus rxqW.rx_ring_size rxqW.cur_rx)] ∧
     ((gfar_rx_iteration rxqW 1536 none).q.ring.getD rxqW.cur_rx default).bufPtr
       = 500 ∧
     ((gfar_rx_iteration rxqW 1536 none).q.ring.getD rxqW.cur_rx default).status
       &&& RXBD_EMPTY ≠ 0) :=
  ⟨⟨by decide, by decide, by decide, by decide, by decide⟩,
   gfar_rx_iteration_alloc_fail rxqW 1536 { id := 7, addr := 500 }
     (by decide) (by decide) (by decide) (by decide) (by decide)⟩

/-! ### Software TCP segmentation (gfar_tso, claim C7)

`gfar_tso` splits a large packet into per-segment packets and submits
each one through `gfar_start_xmit` inside its do-while loop.  The
segment construction (header replication, sequence/checksum updates,
lines 2728-2806) does not influence the submission control flow and is
abstracted: the loop is modelled over the list of already-built segment
packets.  What is translated exactly is the failure handling: when a
submission returns busy, the failing segment and the original large
packet are freed and the function returns NETDEV_TX_OK; on full success
the original packet is recycled and NETDEV_TX_OK is returned. -/

structure TsoOut where
  ret : Nat
  q : TxQueue
  freed : List TxSkb
  recycled : List TxSkb
deriving Repr, DecidableEq

/-- Translation of the submission loop of `gfar_tso`: submit each
segment in turn; on the first busy result free the failing segment and
the original packet and return NETDEV_TX_OK (0); when every segment is
accepted, recycle the original packet and return the last submission's
result, NETDEV_TX_OK. -/
def gfar_tso_loop (q : TxQueue) (orig : TxSkb) (segs : List TxSkb) : TsoOut :=
  match segs with
  | [] => { ret := 0, q := q, freed := [], recycled := [orig] }
  | nskb :: rest =>
    let out := gfar_start_xmit nskb q
    match out.res with
    | TxResult.ok => gfar_tso_loop out.q orig rest
    | TxResult.busy => { ret := 0, q := out.q, freed := [nskb, orig], recycled := [] }

/-- Queue state after submitting a list of segments in order. -/
def submit_all (q : TxQueue) (segs : List TxSkb) : TxQueue :=
  match segs with
  | [] => q
  | s :: rest => submit_all (gfar_start_xmit s q).q rest

/-- Every segment of the list is accepted when submitted in order. -/
def all_accepted (q : TxQueue) (segs : List TxSkb) : Bool :=
  match segs with
  | [] => true
  | s :: rest =>
    match (gfar_start_xmit s q).res with
    | TxResult.ok => all_accepted (gfar_start_xmit s q).q rest
    | TxResult.busy => false

/-- Concrete queue for the C7 theorems: eight slots, three free
descriptors, so a first two-descriptor segment fits and a second one
does not. -/
def tsoqW : TxQueue :=
  { tx_ring_size := 8, ring := List.replicate 8 {}, num_txbdfree := 3,
    cur_tx := 0, skb_curtx := 0, tx_skbuff := List.replicate 8 none }

def tsoOrigW : TxSkb :=
  { headlen := 64, len := 3000, frags := [(2900, 8192)], headAddr := 333 }

def tsoSeg1W : TxSkb :=
  { headlen := 64, len := 1500, frags := [(1400, 4096)], headAddr := 111 }

def tsoSeg2W : TxSkb :=
  { headlen := 64, len := 1500, frags := [(1400, 5120)], headAddr := 222 }

/-- Counterexample for C7: the first segment is accepted and the second
fails, yet the operation returns the success code NETDEV_TX_OK, only the
failing segment and the original packet are freed, and the first
segment remains queued for transmission with its two descriptors still
consumed — a partial multi-segment commit is observable. -/
theorem gfar_tso_partial_commit :
    (gfar_tso_loop tsoqW tsoOrigW [tsoSeg1W, tsoSeg2W]).ret = 0 ∧
    (gfar_tso_loop tsoqW tsoOrigW [tsoSeg1W, tsoSeg2W]).freed =
      [tsoSeg2W, tsoOrigW] ∧
    some tsoSeg1W ∈ (gfar_tso_loop tsoqW tsoOrigW [tsoSeg1W, tsoSeg2W]).q.tx_skbuff ∧
    (gfar_tso_loop tsoqW tsoOrigW [tsoSeg1W, tsoSeg2W]).q.num_txbdfree = 1 := by
  refine ⟨rfl, rfl, ?_, rfl⟩
  decide

/-- Claim C7 (amended): when the submission of a segment fails
mid-stream, only that failing segment and the original large packet are
freed, the remaining segments are not submitted, the operation returns
the success code NETDEV_TX_OK, and the queue keeps the state produced by
the earlier accepted segments (plus the stopped marking of the failed
attempt) — segments already submitted remain queued for transmission. -/
theorem gfar_tso_mid_failure (q : TxQueue) (orig : TxSkb) (pre : List TxSkb)
    (nskb : TxSkb) (post : List TxSkb)
    (hpre : all_accepted q pre = true)
    (hfail : (gfar_start_xmit nskb (submit_all q pre)).res = TxResult.busy) :
    gfar_tso_loop q orig (pre ++ nskb :: post) =
      { ret := 0
        q := (gfar_start_xmit nskb (submit_all q pre)).q
        freed := [nskb, orig]
        recycled := [] } := by
  induction pre generalizing q with
  | nil =>
    simp only [List.nil_append, gfar_tso_loop, submit_all] at hfail ⊢
    rw [hfail]
  | cons p ps ih =>
    simp only [List.cons_append, gfar_tso_loop]
    simp only [all_accepted] at hpre
    simp only [submit_all] at hfail
    cases hres : (gfar_start_xmit p q).res with
    | ok =>
      rw [hres] at hpre
      exact ih (gfar_start_xmit p q).q hpre hfail
    | busy =>
      rw [hres] at hpre
      exact absurd hpre (by simp)

/-- Witness for C7 (amended): the mid-failure theorem applied to the
concrete two-segment run on a queue with three free descriptors. -/
theorem gfar_tso_mid_failure_witness :
    (all_accepted tsoqW [tsoSeg1W] = true ∧
      (gfar_start_xmit tsoSeg2W (submit_all tsoqW [tsoSeg1W])).res =
        TxResult.busy) ∧
    gfar_tso_loop tsoqW tsoOrigW ([tsoSeg1W] ++ tsoSeg2W :: []) =
      { ret := 0
        q := (gfar_start_xmit tsoSeg2W (submit_all tsoqW [tsoSeg1W])).q
        freed := [tsoSeg2W, tsoOrigW]
        recycled := [] } :=
  ⟨⟨by decide, by decide⟩,
   gfar_tso_mid_failure tsoqW tsoOrigW [tsoSeg1W] tsoSeg2W []
     (by decide) (by decide)⟩

/-! ### Device halt (gfar_halt, claim C8)

The software-visible register state touched by `gfar_halt` is modelled:
per-group interrupt mask and event registers, and the shared DMA control
and MAC configuration registers of group zero.  The bounded wait for the
graceful-stop acknowledgment only reads hardware event bits and changes
no software-visible state.  The state also carries the
descriptor-memory-freed flag and a count of buffer-array free
operations so that "halt frees nothing" is expressible: `gfar_halt`
leaves both untouched (freeing happens only in `free_skb_resources`,
which `gfar_halt` never calls). -/

def IMASK_INIT_CLEAR : Nat := 0x00000000
def IEVENT_INIT_CLEAR : Nat := 0xffffffff
def DMACTRL_GRS : Nat := 0x00000010
def DMACTRL_GTS : Nat := 0x00000008
def MACCFG1_RX_EN : Nat := 0x00000004
def MACCFG1_TX_EN : Nat := 0x00000001

structure GfarGroupRegs where
  imask : Nat
  ievent : Nat
deriving Repr, DecidableEq

structure GfarDevState where
  groups : List GfarGroupRegs
  dmactrl : Nat
  maccfg1 : Nat
  descMemFreed : Bool := false
  bdFreeCalls : Nat := 0
deriving Repr, DecidableEq

/-- Translation of `gfar_halt_nodisable`: mask and clear every group's
interrupts, then, when the graceful receive and transmit stop bits are
not both set in DMACTRL, set them and wait (the wait only polls
hardware event bits). -/
def gfar_halt_nodisable (s : GfarDevState) : GfarDevState :=
  let s1 := { s with
    groups := s.groups.map
      (fun _ => { imask := IMASK_INIT_CLEAR, ievent := IEVENT_INIT_CLEAR }) }
  if s1.dmactrl &&& (DMACTRL_GRS ||| DMACTRL_GTS) =
      (DMACTRL_GRS ||| DMACTRL_GTS) then s1
  else { s1 with dmactrl := s1.dmactrl ||| (DMACTRL_GRS ||| DMACTRL_GTS) }

/-- Translation of `gfar_halt`: graceful stop, then clear the receive
and transmit enable bits in MACCFG1. -/
def gfar_halt (s : GfarDevState) : GfarDevState :=
  let s1 := gfar_halt_nodisable s
  { s1 with
    maccfg1 := s1.maccfg1 &&&
      (0xFFFFFFFF ^^^ (MACCFG1_RX_EN ||| MACCFG1_TX_EN)) }

theorem and_chain_zero (x a b : Nat) (h : a &&& b = 0) : (x &&& a) &&& b = 0 := by
  apply Nat.eq_of_testBit_eq
  intro i
  have hi := congrArg (fun z => z.testBit i) h
  simp only [Nat.testBit_and, Nat.zero_testBit] at hi
  simp only [Nat.testBit_and, Nat.zero_testBit, Bool.and_assoc, hi, Bool.and_false]

theorem and_and_self (x c : Nat) : (x &&& c) &&& c = x &&& c := by
  apply Nat.eq_of_testBit_eq
  intro i
  simp [Nat.testBit_and, Bool.and_assoc]

/-- Claim C8: the halt operation is idempotent — calling it from an
already-halted state changes nothing (halt(halt(s)) = halt(s)), it
leaves the device not running (both MAC enable bits cleared), and it
performs no free of descriptor memory or buffer arrays, so a repeated
halt cannot double-free. -/
theorem gfar_halt_idempotent (s : GfarDevState) :
    gfar_halt (gfar_halt s) = gfar_halt s ∧
    (gfar_halt s).maccfg1 &&& (MACCFG1_RX_EN ||| MACCFG1_TX_EN) = 0 ∧
    (gfar_halt s).descMemFreed = s.descMemFreed ∧
    (gfar_halt s).bdFreeCalls = s.bdFreeCalls := by
  refine ⟨?_, ?_, ?_, ?_⟩
  · unfold gfar_halt gfar_halt_nodisable
    by_cases hd : s.dmactrl &&& (DMACTRL_GRS ||| DMACTRL_GTS) =
        (DMACTRL_GRS ||| DMACTRL_GTS)
    · simp [hd, List.map_map, and_and_self]
    · simp [hd, or_and_self_eq, List.map_map, and_and_self]
  · unfold gfar_halt gfar_halt_nodisable
    by_cases hd : s.dmactrl &&& (DMACTRL_GRS ||| DMACTRL_GTS) =
        (DMACTRL_GRS ||| DMACTRL_GTS)
    · simp only [hd, if_pos]
      exact and_chain_zero _ _ _ (by decide)
    · simp only [hd, if_neg]
      exact and_chain_zero _ _ _ (by decide)
  · unfold gfar_halt gfar_halt_nodisable
    by_cases hd : s.dmactrl &&& (DMACTRL_GRS ||| DMACTRL_GTS) =
        (DMACTRL_GRS ||| DMACTRL_GTS) <;> simp [hd]
  · unfold gfar_halt gfar_halt_nodisable
    by_cases hd : s.dmactrl &&& (DMACTRL_GRS ||| DMACTRL_GTS) =
        (DMACTRL_GRS ||| DMACTRL_GTS) <;> simp [hd]

/-! ### Receive poll budget computation (gfar_poll_rx, claim C9)

`gfar_poll_rx` counts the queues with a pending receive-frame bit in
the combination of the freshly read RSTAT value (masked to the RXF
bits) and the RXF bits saved from the previous poll, then divides the
NAPI budget by that count.  The count loop clears the lowest set bit
until the word is zero.  The division carries no zero guard; C integer
division by zero is undefined behaviour, represented here by `none`. -/

def RSTAT_RXF_ALL_MASK : Nat := 0x000000ff

/-- Translation of the bit-count loop:
`while (rstat_local) { num_act_qs++; rstat_local &= rstat_local - 1; }`. -/
def hweight (x : Nat) : Nat :=
  if h : x = 0 then 0 else 1 + hweight (x &&& (x - 1))
decreasing_by
  exact Nat.lt_of_le_of_lt Nat.and_le_right
    (Nat.sub_lt (Nat.pos_of_ne_zero h) Nat.one_pos)

/-- Translation of the per-queue budget computation of `gfar_poll_rx`:
`budget_per_queue = budget / num_act_qs` over the pending set
`(rstat & RSTAT_RXF_ALL_MASK) | rstat_prev`, undefined (none) when no
pending bit is set. -/
def gfar_poll_rx_budget (rstat rstat_prev budget : Nat) : Option Nat :=
  let rstat_rxf := (rstat &&& RSTAT_RXF_ALL_MASK) ||| rstat_prev
  let num_act_qs := hweight rstat_rxf
  if num_act_qs = 0 then none else some (budget / num_act_qs)

theorem hweight_eq_zero_iff (x : Nat) : hweight x = 0 ↔ x = 0 := by
  constructor
  · intro h
    by_contra hx
    rw [hweight] at h
    simp [hx] at h
  · intro h
    subst h
    rw [hweight]
    simp

/-- Claim C9: the per-queue cleanup budget is the total budget divided
by the number of queues with a pending-frame bit in the combination of
the current hardware status and the saved status; the division is
unguarded, so the computation is well-defined exactly when at least one
pending-frame bit is set, and is undefined when none is. -/
theorem gfar_poll_rx_budget_defined (rstat rstat_prev budget : Nat) :
    ((gfar_poll_rx_budget rstat rstat_prev budget).isSome ↔
      (rstat &&& RSTAT_RXF_ALL_MASK) ||| rstat_prev ≠ 0) ∧
    ((rstat &&& RSTAT_RXF_ALL_MASK) ||| rstat_prev ≠ 0 →
      gfar_poll_rx_budget rstat rstat_prev budget =
        some (budget / hweight ((rstat &&& RSTAT_RXF_ALL_MASK) ||| rstat_prev))) ∧
    ((rstat &&& RSTAT_RXF_ALL_MASK) ||| rstat_prev = 0 →
      gfar_poll_rx_budget rstat rstat_prev budget = none) := by
  refine ⟨?_, ?_, ?_⟩
  · unfold gfar_poll_rx_budget
    by_cases h : hweight ((rstat &&& RSTAT_RXF_ALL_MASK) ||| rstat_prev) = 0
    · rw [if_pos h]
      simp [(hweight_eq_zero_iff _).mp h]
    · rw [if_neg h]
      simp only [Option.isSome_some, true_iff]
      intro h0
      apply h
      rw [h0]
      exact (hweight_eq_zero_iff 0).mpr rfl
  · intro h0
    unfold gfar_poll_rx_budget
    have hw : hweight ((rstat &&& RSTAT_RXF_ALL_MASK) ||| rstat_prev) ≠ 0 :=
      fun hz => h0 ((hweight_eq_zero_iff _).mp hz)
    simp [hw]
  · intro h0
    unfold gfar_poll_rx_budget
    have hw : hweight ((rstat &&& RSTAT_RXF_ALL_MASK) ||| rstat_prev) = 0 := by
      rw [h0]
      exact (hweight_eq_zero_iff 0).mpr rfl
    simp [hw]

/-- Witness for C9: one pending queue (RXF0 set in the fresh status, no
saved bits) makes the division defined with divisor one. -/
theorem gfar_poll_rx_budget_defined_witness :
    ((0x80 : Nat) &&& RSTAT_RXF_ALL_MASK) ||| 0 ≠ 0 ∧
    gfar_poll_rx_budget 0x80 0 64 =
      some (64 / hweight (((0x80 : Nat) &&& RSTAT_RXF_ALL_MASK) ||| 0)) :=
  ⟨by decide,
   (gfar_poll_rx_budget_defined 0x80 0 64).2.1 (by decide)⟩

end Gianfar
